import Mathlib

/-!
Verification development for the clone-resolution and post-clone
reconciliation engine of datalad (src/datalad/core/distributed/clone.py).

The Python source is shallowly embedded: pure string manipulation is
translated directly, stateful operations (filesystem probes, git calls,
config writes) are represented by explicit environment records whose
fields stand for the results of the external collaborator calls, and the
generator of result records becomes a function returning the list of
emitted records together with a trace of side effects.
-/

namespace Datagit

/-- ASCII lowercase conversion of one character, as performed by
str.lower on the diagnostic text. -/
def lowerChar (c : Char) : Char :=
  if 'A' ≤ c && c ≤ 'Z' then Char.ofNat (c.toNat + 32) else c

/-- Lowercasing of a string (str.lower), over the character list so that
it evaluates by computation. -/
def lowerStr (s : String) : String :=
  String.mk (s.toList.map lowerChar)

/-- A whitespace character as stripped by str.strip. -/
def isWS (c : Char) : Bool :=
  c == ' ' || c == '\t' || c == '\n' || c == '\r' || c == '\x0b' || c == '\x0c'

/-- str.strip: drop whitespace from both ends. -/
def stripStr (s : String) : String :=
  String.mk (((s.toList.dropWhile isWS).reverse.dropWhile isWS).reverse)

/-- Python slicing s[:n] over the character list. -/
def strTake (s : String) (n : Nat) : String :=
  String.mk (s.toList.take n)

/-- Python slicing s[n:] over the character list. -/
def strDrop (s : String) (n : Nat) : String :=
  String.mk (s.toList.drop n)

/-- str.startswith over the character list. -/
def strStarts (s pat : String) : Bool :=
  List.isPrefixOf pat.toList s.toList

/-- str.endswith over the character list. -/
def strEnds (s pat : String) : Bool :=
  List.isSuffixOf pat.toList s.toList

/-- Status field of one emitted result record (get_status_dict). -/
inductive RStatus
  | ok
  | error
  | notneeded
  deriving DecidableEq

/-- A result message: either plain text or a template with arguments,
mirroring the `message=str` vs `message=(tmpl, args)` forms in the source. -/
inductive Msg
  | plain (s : String)
  | templ (tmpl : String) (args : List String)
  deriving DecidableEq

/-- One candidate source after decoding and expansion
(clone.py lines 361-370): the expanded git URL together with the
properties duplicated from the decoded source record. -/
structure Candidate where
  giturl : String
  version : Option String
  typ : String
  source : String
  deriving DecidableEq

/-- One result record as emitted by clone_dataset via get_status_dict.
Constant properties (action, logger, refds, ds) are the same
on every record of one invocation and are omitted. -/
structure Record where
  status : RStatus
  message : Option Msg
  source : Option Candidate
  deriving DecidableEq

/-- Outcome of one GitRepo.clone call against a candidate URL: success, or
a CommandError carrying captured stdout and stderr. -/
inductive CloneOutcome
  | success
  | failure (stdout stderr : String)
  deriving DecidableEq

/-- Action taken by postclone_check_head (clone.py lines 540-565). -/
inductive HeadAction
  | intact
  | checkout (localBranch trackBranch : String)
  | warnNoBranch
  deriving DecidableEq

/-- Environment of one clone_dataset invocation: results of all external
collaborator calls (filesystem probes, git, config, URL helpers), so that
the control flow of clone.py lines 349-537 becomes a pure function. -/
structure CloneEnv where
  /-- dest_path.exists() and any(dest_path.iterdir()) (line 373-374). -/
  destNonEmpty : Bool
  /-- destds.is_installed() at the pre-check (line 375). -/
  destInstalled : Bool
  /-- track_url from _get_tracking_source (line 379). -/
  trackUrl : String
  /-- str(Path(track_url)) (line 385); none when Path() raised. -/
  pathNorm : String → Option String
  /-- get_local_file_url(url, compatibility=git) (line 395), external. -/
  localFileUrl : String → String
  /-- os.path.expanduser (line 396), external. -/
  expandUser : String → String
  /-- result of GitRepo.clone for a given candidate URL (line 435). -/
  outcome : String → CloneOutcome
  /-- destds.is_installed() at the post-loop check (line 485). -/
  postInstalled : Bool
  /-- rendering of destds in messages. -/
  dsName : String
  /-- destds.path used in the post-loop error message (line 507). -/
  dsPath : String
  /-- exc_str applied to a captured CommandError (stdout, stderr), external. -/
  excStr : String → String → String
  /-- records yielded by postclonecfg_annexdataset (line 524), external here. -/
  annexRecords : List Record
  /-- records yielded by postclonecfg_ria (line 532), external here. -/
  riaRecords : List Record
  /-- repo.commit_exists HEAD inside postclone_check_head (line 542). -/
  headExists : Bool
  /-- remote-tracking branches for refs/remotes/origin, already sorted by
  git for-each-ref with sort=-committerdate (lines 553-556). -/
  remoteBranches : List String

/-- Tracking-URL comparison of the notneeded pre-check
(clone.py lines 394-396): direct match, file:// normalized match, or
local-path match against the expanduser of the candidate URL. -/
def matchesTracking (env : CloneEnv) (c : Candidate) : Bool :=
  env.trackUrl == c.giturl
  || env.localFileUrl env.trackUrl == c.giturl
  || (match env.pathNorm env.trackUrl with
      | some p => p == env.expandUser c.giturl
      | none => false)

/-- The non-recoverable failure marker checked against lowercased stderr
(clone.py line 456). -/
def workTreePhrase : String := "could not create work tree"

/-- Occurrence of a character list inside another at any position. -/
def subOccurs (needle : List Char) : List Char → Bool
  | [] => needle.isEmpty
  | c :: rest => List.isPrefixOf needle (c :: rest) || subOccurs needle rest

/-- Substring containment, modelling the Python `in` operator on str. -/
def containsSub (hay needle : String) : Bool :=
  subOccurs needle.toList hay.toList

/-- Suffix of the last occurrence of pat in a character list, if any.
This models the group of re.match with a greedy dot-all head applied at
clone.py line 458: the captured group is everything after the last
occurrence of the pattern text. -/
def sufAfterLast (pat : List Char) : List Char → Option (List Char)
  | [] => none
  | c :: rest =>
    match sufAfterLast pat rest with
    | some r => some r
    | none =>
      if List.isPrefixOf pat (c :: rest) then
        some (List.drop pat.length (c :: rest))
      else none

/-- Diagnostic extracted from stderr for the non-recoverable work-tree
failure (clone.py lines 458-469): text after the last occurrence of
a fatal marker, stripped, or the whole stderr with a prefix otherwise. -/
def fatalDiag (stderr : String) : String :=
  match sufAfterLast ("fatal: ".toList) stderr.toList with
  | some suf => stripStr (String.mk suf)
  | none => "stderr: " ++ stderr

/-- Accumulated state of the candidate attempt loop
(clone.py lines 419-477): the error accumulator entries in insertion
order, the winning candidate if any, the fatal work-tree diagnostic if
one occurred, and the candidates actually attempted in order. -/
structure LoopOut where
  errs : List (String × String × String)
  winner : Option Candidate
  fatalStop : Option String
  attempted : List Candidate
  deriving DecidableEq

/-- The candidate attempt loop (clone.py lines 420-477): try candidates in
order; stop at the first success; on a failure record it, and if stderr
indicates the work tree could not be created, stop fatally. -/
def runLoop (env : CloneEnv) : List Candidate → LoopOut
  | [] => ⟨[], none, none, []⟩
  | c :: rest =>
    match env.outcome c.giturl with
    | .success => ⟨[], some c, none, [c]⟩
    | .failure out err =>
      if containsSub (lowerStr err) workTreePhrase then
        ⟨[(c.giturl, out, err)], none, some (fatalDiag err), [c]⟩
      else
        let r := runLoop env rest
        ⟨(c.giturl, out, err) :: r.errs, r.winner, r.fatalStop, c :: r.attempted⟩

/-- The entry the error accumulator stores for a failing candidate:
its URL with the captured stdout and stderr. -/
def failRecord (env : CloneEnv) (c : Candidate) : String × String × String :=
  match env.outcome c.giturl with
  | .failure o e => (c.giturl, o, e)
  | .success => (c.giturl, "", "")

/-- Keep only the first entry per URL key, modelling that error_msgs is an
OrderedDict keyed by URL (clone.py line 419); since the outcome per URL is
deterministic, a repeated key rewrites the same value in place. -/
def dedupKeys (seen : List String) : List (String × String × String) → List (String × String × String)
  | [] => []
  | e :: rest =>
    if seen.contains e.1 then dedupKeys seen rest
    else e :: dedupKeys (e.1 :: seen) rest

/-- The notneeded record of the idempotent early exit
(clone.py lines 397-402). -/
def notneededRec (env : CloneEnv) (src : String) : Record :=
  { status := .notneeded
    message := some (.templ "dataset %s was already cloned from '%s'" [env.dsName, src])
    source := none }

/-- The error record for a non-empty unrelated destination
(clone.py lines 405-408). -/
def existsErrorRec : Record :=
  { status := .error
    message := some (.plain "target path already exists and not empty, refuse to clone into target path")
    source := none }

/-- Joined per-URL diagnostics for the exhaustion error
(clone.py lines 495-498). -/
def joinDiags (env : CloneEnv) (errs : List (String × String × String)) : String :=
  String.intercalate "\n- "
    (errs.map (fun e => e.1 ++ "\n  " ++ env.excStr e.2.1 e.2.2))

/-- Message of the post-loop error when the destination is not installed
(clone.py lines 486-507): a plain enumeration of attempted sources when no
failure carried output, each source paired with its diagnostic otherwise,
and a fallback message when no error was recorded at all. -/
def failMsg (env : CloneEnv) (l : LoopOut) : Msg :=
  let errs := dedupKeys [] l.errs
  if errs.isEmpty then
    .templ "Awkward error -- we failed to clone properly. Although no errors were encountered, target dataset at %s seems to be not fully installed. The 'succesful' source was: %s"
      [env.dsPath, ((l.attempted.getLast?).map Candidate.giturl).getD ""]
  else if errs.all (fun e => e.2.1 == "" && e.2.2 == "") then
    .templ "Failed to clone from all attempted sources: %s" (errs.map (fun e => e.1))
  else
    .templ "Failed to clone from any candidate source URL. Encountered errors per each url were:\n- %s"
      [joinDiags env errs]

/-- The terminal ok record carrying the winning candidate
(clone.py line 537 with line 475). -/
def okRec (c : Candidate) : Record :=
  { status := .ok, message := none, source := some c }

/-- Branch selection of the unborn-HEAD repair (clone.py lines 557-563):
first remote branch that is neither the annex bookkeeping ref nor
literally HEAD. -/
def pickBranch : List String → Option String
  | [] => none
  | b :: rest =>
    if b == "origin/git-annex" || b == "HEAD" then pickBranch rest
    else some b

/-- postclone_check_head (clone.py lines 540-565): when HEAD has no
reachable commit, check out the first suitable remote branch (dropping
the seven-character remote qualifier for the local name) as a tracking
branch; warn when none exists. -/
def postclone_check_head (headExists : Bool) (branches : List String) : HeadAction :=
  if headExists then .intact
  else
    match pickBranch branches with
    | some b => .checkout (strDrop b 7) b
    | none => .warnNoBranch

/-- Observable outcome of one clone_dataset run: the emitted records, the
head-repair action (none when postclone_check_head was not invoked), and
the candidates attempted in order. -/
structure CloneOut where
  records : List Record
  headAction : Option HeadAction
  attempted : List Candidate
  deriving DecidableEq

/-- clone_dataset (clone.py lines 314-537) over an already expanded
candidate list: early exits for an existing non-empty destination, the
attempt loop, the post-loop exhaustion error, and the success path with
its reconciliation records and terminal ok record. -/
def clone_dataset (env : CloneEnv) (cands : List Candidate) : CloneOut :=
  if env.destNonEmpty then
    if env.destInstalled then
      match cands.find? (fun c => matchesTracking env c) with
      | some c => ⟨[notneededRec env c.giturl], none, []⟩
      | none => ⟨[existsErrorRec], none, []⟩
    else ⟨[existsErrorRec], none, []⟩
  else
    let l := runLoop env cands
    match l.fatalStop with
    | some m =>
      ⟨[{ status := .error, message := some (.plain m), source := none }], none, l.attempted⟩
    | none =>
      if env.postInstalled = false then
        ⟨[{ status := .error, message := some (failMsg env l), source := l.winner }],
         none, l.attempted⟩
      else
        match l.winner with
        | some c =>
          ⟨env.annexRecords ++ (if c.typ == "ria" then env.riaRecords else []) ++ [okRec c],
           (if c.version.isNone then
              some (postclone_check_head env.headExists env.remoteBranches)
            else none),
           l.attempted⟩
        | none =>
          -- no winner, yet the destination reports installed: in the source
          -- this state dereferences a missing result key and cannot be
          -- reached by the attempt loop; it carries no records here
          ⟨[], none, l.attempted⟩

/-- Lowercase hexadecimal digit, as matched by one character class of the
dataset-ID pattern at clone.py line 1051. -/
def isHexLower (c : Char) : Bool :=
  ('a' ≤ c && c ≤ 'f') || ('0' ≤ c && c ≤ '9')

/-- Consume exactly n lowercase hexadecimal characters, returning the rest. -/
def hexRun : Nat → List Char → Option (List Char)
  | 0, cs => some cs
  | _ + 1, [] => none
  | n + 1, c :: cs => if isHexLower c then hexRun n cs else none

/-- Consume a dash followed by n lowercase hexadecimal characters. -/
def dashThen (n : Nat) : List Char → Option (List Char)
  | [] => none
  | c :: rest => if c == '-' then hexRun n rest else none

/-- Consume the 8-4-4-4-12 lowercase hexadecimal pattern of
clone.py line 1051 from the front of a character list, returning the
remaining characters on a match. -/
def uuidTail (cs : List Char) : Option (List Char) :=
  ((((hexRun 8 cs).bind (dashThen 4)).bind (dashThen 4)).bind (dashThen 4)).bind
    (dashThen 12)

/-- The dataset-ID check of clone.py line 1052: re.match anchors only at
the start, so this is a pure head match and trailing characters are
ignored. -/
def uuidMatch (s : String) : Bool :=
  (uuidTail s.toList).isSome

/-- Exact 36-character 8-4-4-4-12 lowercase hexadecimal form. -/
def uuidExact (cs : List Char) : Bool :=
  uuidTail cs == some []

/-- Split at the first occurrence of a separator character, returning the
part before it and, when found, the part after it; models
str.split(sep, maxsplit=1) at clone.py lines 1049-1050. -/
def splitAtFirst (sep : Char) : List Char → List Char × Option (List Char)
  | [] => ([], none)
  | c :: rest =>
    if c == sep then ([], some rest)
    else
      let r := splitAtFirst sep rest
      (c :: r.1, r.2)

/-- Modelled from the spec: the structured URL form produced by the RI
parser of datalad.support.network (not under src/): scheme, network
location, path and fragment, with the standard string rendering that
inserts the slash between network location and a relative path. -/
structure URLRI where
  scheme : String
  netloc : String
  path : String
  fragment : String
  deriving DecidableEq

/-- Modelled from the spec: str() of a structured URL (the RI class is not
under src/): scheme separator, network location, path (with a slash
inserted when the path is relative), and the fragment when non-empty. -/
def URLRI.render (u : URLRI) : String :=
  u.scheme ++ "://" ++ u.netloc ++
    (if !(u.path == "") && !(strStarts u.path "/") then "/" else "") ++ u.path ++
    (if u.fragment == "" then "" else "#" ++ u.fragment)

/-- Modelled from the spec: classification performed by the RI parser of
datalad.support.network (not under src/): a DataLad resource identifier
(carrying its deterministic expansion to a git URL), a structured URL, or
any other identifier such as a plain path. -/
inductive SourceRI
  | dataladri (asGitUrl : String)
  | url (u : URLRI)
  | other

/-- The decoded source descriptor returned by decode_source_spec
(clone.py lines 1014-1022). -/
structure DecodeProps where
  source : String
  version : Option String
  typ : String
  giturl : String
  default_destpath : String
  deriving DecidableEq

/-- URL mutation of the ria branch (clone.py lines 1065-1073): fragment
cancelled, ria marker stripped from the scheme, and the trace appended to
the existing path with a slash inserted only when the existing path is
non-empty and does not already end in one. -/
def riaGitUrl (u : URLRI) (trace : String) : URLRI :=
  { scheme := strDrop u.scheme 4
    netloc := u.netloc
    path := u.path ++ (if u.path == "" || strEnds u.path "/" then "" else "/") ++ trace
    fragment := "" }

/-- decode_source_spec (clone.py lines 1001-1092) over the parsed RI of
the (rewrite-applied) specification string. URL rewriting and the
derivation of an installation path from a non-ria URL (which re-parses the
URL with the external RI machinery) are taken as inputs. -/
def decode_source_spec (spec : String) (ri : SourceRI)
    (installPathOf : String → String) : Except String DecodeProps :=
  match ri with
  | .dataladri g =>
    .ok { source := spec, version := none, typ := "dataladri", giturl := g
          default_destpath := installPathOf g }
  | .url u =>
    if strStarts u.scheme "ria+" then
      let sp := splitAtFirst '@' u.fragment.toList
      let dsid := String.mk sp.1
      if uuidMatch dsid then
        .ok { source := spec
              version := sp.2.map (fun cs => String.mk cs)
              typ := "ria"
              giturl := (riaGitUrl u (strTake dsid 3 ++ "/" ++ strDrop dsid 3)).render
              default_destpath := dsid }
      else if strStarts dsid "~" then
        .ok { source := spec
              version := sp.2.map (fun cs => String.mk cs)
              typ := "ria"
              giturl := (riaGitUrl u ("alias/" ++ strDrop dsid 1)).render
              default_destpath := strDrop dsid 1 }
      else
        .error ("RIA URI not recognized, no valid dataset ID or other supported scheme: " ++ spec)
    else
      .ok { source := spec, version := none, typ := "giturl", giturl := spec
            default_destpath := installPathOf spec }
  | .other =>
    .ok { source := spec, version := none, typ := "giturl", giturl := spec
          default_destpath := installPathOf spec }

/-- Decoding of every source specification before any transfer attempt
(clone.py line 361): the list comprehension propagates the first decoding
failure and produces no candidate at all in that case. -/
def decodeAll (installPathOf : String → String) :
    List (String × SourceRI) → Except String (List DecodeProps)
  | [] => .ok []
  | s :: rest =>
    match decode_source_spec s.1 s.2 installPathOf with
    | .error e => .error e
    | .ok p =>
      match decodeAll installPathOf rest with
      | .error e => .error e
      | .ok ps => .ok (p :: ps)

/-- Expansion of one decoded descriptor into candidates
(clone.py lines 367-370): the external expander produces alternative git
URLs and the remaining decoded properties are duplicated. -/
def expandCands (expand : String → List String) (p : DecodeProps) : List Candidate :=
  (expand p.giturl).map (fun g =>
    { giturl := g, version := p.version, typ := p.typ, source := p.source })

/-- Environment of the full operation, adding the external candidate
expander and the external installation-path derivation to the clone
environment. -/
structure FullEnv where
  env : CloneEnv
  expand : String → List String
  installPathOf : String → String

/-- clone_dataset including the decoding stage (clone.py lines 360-370):
a decoding failure aborts before the candidate loop is ever entered. -/
def clone_dataset_full (fe : FullEnv) (specs : List (String × SourceRI)) :
    Except String CloneOut :=
  match decodeAll fe.installPathOf specs with
  | .error e => .error e
  | .ok props => .ok (clone_dataset fe.env (props.flatMap (expandCands fe.expand)))

/-- One remote registration performed by the ancestor-origin walk
(clone.py lines 936-946): the numeric label of the remote name, the
registered URL, and whether content is fetched immediately. -/
structure OriginReg where
  label : Nat
  url : String
  fetch : Bool
  deriving DecidableEq

/-- Name under which a discovered ancestor origin is registered
(clone.py line 940). -/
def OriginReg.remoteName (r : OriginReg) : String :=
  "origin-" ++ toString r.label

/-- Environment of configure_origins: the origin URL recorded for the
dataset at a probed location (locations are modelled by the chain of
followed URLs, the configured dataset itself being the empty chain), the
locality test performed by the RI parser, and the origin-inheritance
configuration gate of the configured dataset. -/
structure OriginEnv where
  originUrl : List String → Option String
  isLocalPath : String → Bool
  inherit : Bool

/-- Result of the ancestor-origin walk: the registrations performed in
order, and whether the walk came to rest on its own (false when the fuel
bound was reached first, the source itself having no recursion bound). -/
structure OriginOut where
  regs : List OriginReg
  completed : Bool
  deriving DecidableEq

/-- Registration step of one configure_origins call
(clone.py lines 927-946): only performed when the probed dataset is not
the configured dataset itself, and only when the URL is not already a
known remote URL of the configured dataset; a successful registration
adds the URL to the known set. -/
def originStep (probe : List String) (label : Nat) (url : String)
    (known : List String) : List OriginReg × List String :=
  if probe ≠ [] then
    if known.contains url then ([], known)
    else ([⟨label, url, true⟩], url :: known)
  else ([], known)

/-- configure_origins (clone.py lines 895-954): look up the probed
dataset's origin URL, stop when there is none, when inheritance is
disabled, or when the URL is not a local path; otherwise possibly
register it and always recurse into the origin's own location with the
next label. The source recursion is unbounded; a fuel argument makes the
embedding total. -/
def configure_origins (env : OriginEnv) :
    Nat → List String → List String → Nat → OriginOut
  | 0, _, _, _ => ⟨[], false⟩
  | fuel + 1, known, probe, label =>
    match env.originUrl probe with
    | none => ⟨[], true⟩
    | some url =>
      if env.inherit = false then ⟨[], true⟩
      else if env.isLocalPath url = false then ⟨[], true⟩
      else
        let st := originStep probe label url known
        let rest := configure_origins env fuel st.2 (probe ++ [url]) (label + 1)
        ⟨st.1 ++ rest.regs, rest.completed⟩

/-- Environment of postclonecfg_annexdataset: results of the external
probes it performs (annex traces at the destination, symlink capability
of the filesystem, the recorded origin URL, and the local-path reading of
a URL by the RI parser, none when the URL is not local). -/
structure AnnexEnv where
  knowsAnnex : Bool
  symlinkCapable : Bool
  originUrl : Option String
  localPath : String → Option (List String)

/-- Side effects of postclonecfg_annexdataset: configuration entries
written in order, the local-availability markings, the symlink target of
the annex directory when one was created, and the warnings logged. -/
structure AnnexState where
  config : List (String × String)
  untrustedHere : Bool
  deadHere : Bool
  annexLink : Option (List String)
  warnedNoSymlink : Bool
  warnedNonLocalOrigin : Bool
  deriving DecidableEq

/-- The all-clear initial state: nothing written, nothing marked. -/
def emptyAnnexState : AnnexState :=
  { config := [], untrustedHere := false, deadHere := false,
    annexLink := none, warnedNoSymlink := false, warnedNonLocalOrigin := false }

/-- postclonecfg_annexdataset (clone.py lines 724-819) up to the special
remote enumeration: return untouched when the destination shows no annex
traces; under auto hardlinking is configured; under auto or a shared mode
the local availability is untrusted; under ephemeral the origin remote is
excluded from annex transfer, the local availability is marked dead, and
when symlinks are supported and the origin is local the annex directory
is replaced by a symlink into the origin's annex directory; any reckless
mode is persisted for nested clones. -/
def postclonecfg_annexdataset (env : AnnexEnv) (reckless : Option String) : AnnexState :=
  if env.knowsAnnex = false then emptyAnnexState
  else
    let s1 :=
      if reckless == some "auto" then
        { emptyAnnexState with config := [("annex.hardlink", "true")] }
      else emptyAnnexState
    let s2 :=
      if reckless == some "auto"
         || (reckless.map (fun r => strStarts r "shared-")).getD false then
        { s1 with untrustedHere := true }
      else if reckless == some "ephemeral" then
        let sA := { s1 with
          config := s1.config ++ [("remote.origin.annex-ignore", "true")]
          deadHere := true }
        if env.symlinkCapable then
          match env.originUrl with
          | none => sA
          | some u =>
            match env.localPath u with
            | some p =>
              let gitp := if p.getLast? == some ".git" then p else p ++ [".git"]
              { sA with annexLink := some (gitp ++ ["annex"]) }
            | none => { sA with warnedNonLocalOrigin := true }
        else { sA with warnedNoSymlink := true }
      else s1
    if reckless.isSome then
      { s2 with config := s2.config ++ [("datalad.clone.reckless", reckless.getD "")] }
    else s2

/-! ## Helper lemmas about the attempt loop -/

/-- A candidate whose attempt fails without the non-recoverable work-tree
diagnostic: the loop records it and moves on. -/
def nonFatalFail (env : CloneEnv) (c : Candidate) : Prop :=
  ∃ out err, env.outcome c.giturl = .failure out err ∧
    containsSub (lowerStr err) workTreePhrase = false

theorem runLoop_append_nonfatal (env : CloneEnv) (pre rest : List Candidate)
    (h : ∀ d ∈ pre, nonFatalFail env d) :
    runLoop env (pre ++ rest) =
      ⟨pre.map (failRecord env) ++ (runLoop env rest).errs,
       (runLoop env rest).winner,
       (runLoop env rest).fatalStop,
       pre ++ (runLoop env rest).attempted⟩ := by
  induction pre with
  | nil => simp
  | cons d pre ih =>
    obtain ⟨o, e, ho, hnf⟩ := h d (by simp)
    have ih' := ih (fun x hx => h x (by simp [hx]))
    simp only [List.cons_append, runLoop, ho, hnf, Bool.false_eq_true, if_false,
      List.map_cons, List.append_assoc]
    simp [ih', failRecord, ho]

theorem failRecord_fst (env : CloneEnv) (c : Candidate) :
    (failRecord env c).1 = c.giturl := by
  unfold failRecord
  cases env.outcome c.giturl <;> rfl

theorem dedupKeys_self (l : List (String × String × String)) :
    ∀ seen : List String,
    (l.map (fun e => e.1)).Nodup →
    (∀ e ∈ l, seen.contains e.1 = false) →
    dedupKeys seen l = l := by
  induction l with
  | nil => intro seen _ _; rfl
  | cons e rest ih =>
    intro seen hnd hs
    have h1 : seen.contains e.1 = false := hs e (by simp)
    rw [List.map_cons] at hnd
    have hnd' := List.nodup_cons.mp hnd
    simp only [dedupKeys, h1, Bool.false_eq_true, if_false]
    rw [ih (e.1 :: seen) hnd'.2]
    intro x hx
    have hx1 : x.1 ∈ rest.map (fun e => e.1) := List.mem_map_of_mem _ hx
    have hne : (x.1 == e.1) = false := by
      apply beq_eq_false_iff_ne.mpr
      intro hq
      exact hnd'.1 (hq ▸ hx1)
    simp only [List.contains_cons, hne, Bool.false_or]
    exact hs x (List.mem_cons_of_mem _ hx)

/-! ## Claims about the attempt engine -/

/-- C1: when the destination path exists and is non-empty, an installed
destination whose tracking URL matches some candidate giturl (directly,
via the file URL form, or via the local-path form) yields exactly one
notneeded record with no transfer attempted, and a non-matching or
uninstalled destination yields exactly one error record, again with no
transfer attempted. -/
theorem existing_destination_early_exit (env : CloneEnv) (cands : List Candidate)
    (hne : env.destNonEmpty = true) :
    (env.destInstalled = true →
      (∃ c ∈ cands, matchesTracking env c = true) →
      ∃ c, cands.find? (fun c => matchesTracking env c) = some c ∧
        matchesTracking env c = true ∧
        clone_dataset env cands = ⟨[notneededRec env c.giturl], none, []⟩) ∧
    ((env.destInstalled = false ∨ ∀ c ∈ cands, matchesTracking env c = false) →
      clone_dataset env cands = ⟨[existsErrorRec], none, []⟩) := by
  constructor
  · intro hi hex
    cases hfind : cands.find? (fun c => matchesTracking env c) with
    | none =>
      obtain ⟨c, hc, hm⟩ := hex
      have := List.find?_eq_none.mp hfind c hc
      simp [hm] at this
    | some c =>
      exact ⟨c, rfl, List.find?_some hfind, by simp [clone_dataset, hne, hi, hfind]⟩
  · intro hOr
    rcases hOr with hi | hall
    · simp [clone_dataset, hne, hi]
    · cases hi : env.destInstalled with
      | false => simp [clone_dataset, hne, hi]
      | true =>
        have hfind : cands.find? (fun c => matchesTracking env c) = none :=
          List.find?_eq_none.mpr (fun c hc => by simp [hall c hc])
        simp [clone_dataset, hne, hi, hfind]

/-- Concrete environment for the idempotent early-exit witness. -/
def envIdem : CloneEnv :=
  { destNonEmpty := true, destInstalled := true, trackUrl := "http://ex.com/ds"
    pathNorm := fun _ => none, localFileUrl := fun s => "file://" ++ s, expandUser := id
    outcome := fun _ => .success, postInstalled := true, dsName := "ds", dsPath := "/tmp/ds"
    excStr := fun _ e => e, annexRecords := [], riaRecords := []
    headExists := true, remoteBranches := [] }

/-- The candidate whose giturl equals the recorded tracking URL. -/
def candIdem : Candidate :=
  { giturl := "http://ex.com/ds", version := none, typ := "giturl", source := "http://ex.com/ds" }

theorem existing_destination_early_exit_witness :
    clone_dataset envIdem [candIdem] = ⟨[notneededRec envIdem candIdem.giturl], none, []⟩ := by
  obtain ⟨c, hfind, _, hout⟩ :=
    (existing_destination_early_exit envIdem [candIdem] rfl).1 rfl
      ⟨candIdem, by simp, by decide⟩
  have hc : c = candIdem := by
    have := List.mem_of_find?_eq_some hfind
    simpa using this
  exact hc ▸ hout

/-- C2: a candidate failure whose stderr carries the work-tree diagnostic
terminates the operation with exactly one error record holding the
extracted diagnostic; earlier candidates failed non-fatally and no later
candidate is attempted. -/
theorem worktree_failure_fatal (env : CloneEnv) (pre : List Candidate)
    (c : Candidate) (post : List Candidate) (out err : String)
    (hne : env.destNonEmpty = false)
    (hpre : ∀ d ∈ pre, nonFatalFail env d)
    (hc : env.outcome c.giturl = .failure out err)
    (hfatal : containsSub (lowerStr err) workTreePhrase = true) :
    clone_dataset env (pre ++ c :: post) =
      ⟨[{ status := .error, message := some (.plain (fatalDiag err)), source := none }],
       none, pre ++ [c]⟩ := by
  have hloop : runLoop env (c :: post) =
      ⟨[(c.giturl, out, err)], none, some (fatalDiag err), [c]⟩ := by
    simp [runLoop, hc, hfatal]
  have h := runLoop_append_nonfatal env pre (c :: post) hpre
  rw [hloop] at h
  simp [clone_dataset, hne, h]

/-- Concrete environment for the work-tree failure witness. -/
def envFat : CloneEnv :=
  { destNonEmpty := false, destInstalled := false, trackUrl := ""
    pathNorm := fun _ => none, localFileUrl := fun _ => "", expandUser := id
    outcome := fun g =>
      if g == "http://a/1" then
        .failure "" "fatal: could not create work tree dir: denied"
      else .success
    postInstalled := false, dsName := "ds", dsPath := "/tmp/ds", excStr := fun _ e => e
    annexRecords := [], riaRecords := [], headExists := true, remoteBranches := [] }

/-- First candidate of the work-tree witness: its failure is fatal. -/
def candFat : Candidate := { giturl := "http://a/1", version := none, typ := "giturl", source := "s" }

/-- Second candidate of the work-tree witness: never attempted. -/
def candAfterFat : Candidate := { giturl := "http://a/2", version := none, typ := "giturl", source := "s" }

theorem worktree_failure_fatal_witness :
    clone_dataset envFat [candFat, candAfterFat] =
      ⟨[{ status := .error
          message := some (.plain "could not create work tree dir: denied")
          source := none }],
       none, [candFat]⟩ := by
  have h := worktree_failure_fatal envFat [] candFat [candAfterFat] ""
    "fatal: could not create work tree dir: denied" rfl (by intro d hd; simp at hd)
    (by decide) (by decide)
  simpa using h

/-- C3: candidates are attempted strictly in order, the loop stops at the
first success leaving later candidates unattempted, and the terminal ok
record emitted after the reconciliation records carries the winning
candidate in its source field. -/
theorem first_success_wins (env : CloneEnv) (pre : List Candidate) (c : Candidate)
    (post : List Candidate)
    (hne : env.destNonEmpty = false)
    (hpre : ∀ d ∈ pre, nonFatalFail env d)
    (hc : env.outcome c.giturl = .success)
    (hpi : env.postInstalled = true) :
    clone_dataset env (pre ++ c :: post) =
      ⟨env.annexRecords ++ (if c.typ == "ria" then env.riaRecords else []) ++ [okRec c],
       (if c.version.isNone then
          some (postclone_check_head env.headExists env.remoteBranches)
        else none),
       pre ++ [c]⟩ := by
  have hloop : runLoop env (c :: post) = ⟨[], some c, none, [c]⟩ := by
    simp [runLoop, hc]
  have h := runLoop_append_nonfatal env pre (c :: post) hpre
  rw [hloop] at h
  simp [clone_dataset, hne, h, hpi]

/-- Concrete environment for the first-success witness: the first URL
fails without diagnostics, the remaining ones succeed. -/
def envWin : CloneEnv :=
  { destNonEmpty := false, destInstalled := false, trackUrl := ""
    pathNorm := fun _ => none, localFileUrl := fun _ => "", expandUser := id
    outcome := fun g => if g == "http://a/1" then .failure "" "" else .success
    postInstalled := true, dsName := "ds", dsPath := "/tmp/ds", excStr := fun _ e => e
    annexRecords := [], riaRecords := [], headExists := true, remoteBranches := [] }

/-- Failing first candidate of the first-success witness. -/
def candLose : Candidate := { giturl := "http://a/1", version := none, typ := "giturl", source := "s" }

/-- Winning second candidate of the first-success witness. -/
def candWin : Candidate := { giturl := "http://a/2", version := none, typ := "giturl", source := "s" }

/-- Third candidate of the first-success witness: never attempted. -/
def candSpare : Candidate := { giturl := "http://a/3", version := none, typ := "giturl", source := "s" }

theorem first_success_wins_witness :
    clone_dataset envWin [candLose, candWin, candSpare] =
      ⟨[okRec candWin], some .intact, [candLose, candWin]⟩ := by
  have h := first_success_wins envWin [candLose] candWin [candSpare] rfl
    (by intro d hd; simp at hd; subst hd
        exact ⟨"", "", by decide, by decide⟩)
    (by decide) rfl
  exact h

/-- C4: when every candidate fails without the fatal diagnostic and the
destination remains uninstalled, exactly one error record is emitted; its
message enumerates the attempted URLs alone when no failure carried any
stdout or stderr, and pairs each URL with its diagnostic as soon as one
failure carried output. -/
theorem all_candidates_failed_error (env : CloneEnv) (cands : List Candidate)
    (hne : env.destNonEmpty = false)
    (hall : ∀ d ∈ cands, nonFatalFail env d)
    (hnn : cands ≠ [])
    (hnodup : (cands.map (fun c => c.giturl)).Nodup)
    (hpi : env.postInstalled = false) :
    clone_dataset env cands =
      ⟨[{ status := .error
          message := some (
            if (cands.map (failRecord env)).all (fun e => e.2.1 == "" && e.2.2 == "") then
              .templ "Failed to clone from all attempted sources: %s"
                ((cands.map (failRecord env)).map (fun e => e.1))
            else
              .templ "Failed to clone from any candidate source URL. Encountered errors per each url were:\n- %s"
                [joinDiags env (cands.map (failRecord env))])
          source := none }],
       none, cands⟩ := by
  have h := runLoop_append_nonfatal env cands [] hall
  simp only [List.append_nil] at h
  have hddk : dedupKeys [] (cands.map (failRecord env)) = cands.map (failRecord env) := by
    apply dedupKeys_self
    · have : (cands.map (failRecord env)).map (fun e => e.1) =
        cands.map (fun c => c.giturl) := by
        rw [List.map_map]
        exact List.map_congr_left (fun c _ => failRecord_fst env c)
      rw [this]; exact hnodup
    · intro e _; rfl
  have hmapne : (cands.map (failRecord env)).isEmpty = false := by
    cases cands with
    | nil => exact absurd rfl hnn
    | cons a l => rfl
  simp [clone_dataset, hne, h, runLoop, hpi, failMsg, hddk, hmapne]

/-- Concrete environment for the exhaustion witness: every URL fails and
no failure carries any output. -/
def envExh : CloneEnv :=
  { destNonEmpty := false, destInstalled := false, trackUrl := ""
    pathNorm := fun _ => none, localFileUrl := fun _ => "", expandUser := id
    outcome := fun _ => .failure "" ""
    postInstalled := false, dsName := "ds", dsPath := "/tmp/ds", excStr := fun _ e => e
    annexRecords := [], riaRecords := [], headExists := true, remoteBranches := [] }

/-- First candidate of the exhaustion witness. -/
def candExh1 : Candidate := { giturl := "http://a/1", version := none, typ := "giturl", source := "s" }

/-- Second candidate of the exhaustion witness. -/
def candExh2 : Candidate := { giturl := "http://a/2", version := none, typ := "giturl", source := "s" }

theorem all_candidates_failed_error_witness :
    clone_dataset envExh [candExh1, candExh2] =
      ⟨[{ status := .error
          message := some (.templ "Failed to clone from all attempted sources: %s"
            ["http://a/1", "http://a/2"])
          source := none }],
       none, [candExh1, candExh2]⟩ := by
  have h := all_candidates_failed_error envExh [candExh1, candExh2] rfl
    (by intro d hd
        refine ⟨"", "", ?_, by decide⟩
        rfl)
    (by simp) (by decide) rfl
  exact h

/-! ## Unborn-HEAD repair -/

theorem pickBranch_eq_find (bs : List String) :
    pickBranch bs = bs.find? (fun b => !(b == "origin/git-annex" || b == "HEAD")) := by
  induction bs with
  | nil => rfl
  | cons b rest ih =>
    cases hb : (b == "origin/git-annex" || b == "HEAD") with
    | true =>
      rw [List.find?_cons_of_neg _ (by simp [hb])]
      simp [pickBranch, hb, ih]
    | false =>
      rw [List.find?_cons_of_pos _ (by simp [hb])]
      simp [pickBranch, hb]

/-- Concrete environment refuting the unconditional reading of the
unborn-HEAD repair: transfer succeeds, HEAD is unborn, and a suitable
remote branch exists. -/
def envPinned : CloneEnv :=
  { destNonEmpty := false, destInstalled := false, trackUrl := ""
    pathNorm := fun _ => none, localFileUrl := fun _ => "", expandUser := id
    outcome := fun _ => .success, postInstalled := true, dsName := "ds", dsPath := "/tmp/ds"
    excStr := fun _ e => e, annexRecords := [], riaRecords := []
    headExists := false, remoteBranches := ["origin/main"] }

/-- A candidate carrying an explicit version request. -/
def candPinned : Candidate :=
  { giturl := "http://ex.com/r", version := some "v1", typ := "giturl", source := "http://ex.com/r" }

/-- C6 counterexample: a successful transfer with a version request and an
unborn HEAD where a suitable remote branch exists, yet the repair is not
invoked at all (clone.py line 514 gates postclone_check_head on the
absence of a version), so no branch is enumerated or checked out. -/
theorem head_repair_skipped_when_version_pinned :
    envPinned.outcome candPinned.giturl = .success ∧
    envPinned.headExists = false ∧
    postclone_check_head false ["origin/main"] = .checkout "main" "origin/main" ∧
    (clone_dataset envPinned [candPinned]).headAction = none := by
  refine ⟨rfl, rfl, by decide, by decide⟩

/-- C6 amended: after every successful transfer for which no version was
requested, postclone_check_head runs; when HEAD has no reachable commit it
checks out, as a tracking branch, the first remote branch (in the order
handed over by git, sorted by descending committer date) that is neither
the annex bookkeeping ref nor literally HEAD, dropping the remote
qualifier for the local name; when no suitable branch exists the outcome
is only a warning; when HEAD has a commit nothing is done. -/
theorem head_repair_unborn (env : CloneEnv) (pre : List Candidate) (c : Candidate)
    (post : List Candidate)
    (hne : env.destNonEmpty = false)
    (hpre : ∀ d ∈ pre, nonFatalFail env d)
    (hc : env.outcome c.giturl = .success)
    (hpi : env.postInstalled = true)
    (hver : c.version = none) :
    (clone_dataset env (pre ++ c :: post)).headAction =
      some (postclone_check_head env.headExists env.remoteBranches) ∧
    (env.headExists = false →
      postclone_check_head env.headExists env.remoteBranches =
        (match env.remoteBranches.find?
            (fun b => !(b == "origin/git-annex" || b == "HEAD")) with
         | some b => HeadAction.checkout (strDrop b 7) b
         | none => HeadAction.warnNoBranch)) ∧
    (env.headExists = true →
      postclone_check_head env.headExists env.remoteBranches = .intact) := by
  refine ⟨?_, ?_, ?_⟩
  · have hloop : runLoop env (c :: post) = ⟨[], some c, none, [c]⟩ := by
      simp [runLoop, hc]
    have h := runLoop_append_nonfatal env pre (c :: post) hpre
    rw [hloop] at h
    simp [clone_dataset, hne, h, hpi, hver]
  · intro hh
    rw [hh]
    simp only [postclone_check_head, Bool.false_eq_true, if_false, pickBranch_eq_find]
  · intro hh
    rw [hh]
    rfl

/-- Concrete environment for the unborn-HEAD witness: no version
requested, HEAD unborn, the bookkeeping ref listed first. -/
def envUnborn : CloneEnv :=
  { destNonEmpty := false, destInstalled := false, trackUrl := ""
    pathNorm := fun _ => none, localFileUrl := fun _ => "", expandUser := id
    outcome := fun _ => .success, postInstalled := true, dsName := "ds", dsPath := "/tmp/ds"
    excStr := fun _ e => e, annexRecords := [], riaRecords := []
    headExists := false, remoteBranches := ["origin/git-annex", "origin/main", "origin/dev"] }

/-- Unpinned candidate of the unborn-HEAD witness. -/
def candUnborn : Candidate :=
  { giturl := "http://ex.com/r", version := none, typ := "giturl", source := "http://ex.com/r" }

theorem head_repair_unborn_witness :
    (clone_dataset envUnborn [candUnborn]).headAction =
      some (postclone_check_head envUnborn.headExists envUnborn.remoteBranches) ∧
    postclone_check_head envUnborn.headExists envUnborn.remoteBranches =
      .checkout "main" "origin/main" := by
  have h := head_repair_unborn envUnborn [] candUnborn [] rfl
    (by intro d hd; simp at hd) rfl rfl rfl
  refine ⟨by simpa using h.1, ?_⟩
  rw [h.2.1 rfl]
  decide

/-! ## Reckless ephemeral reconciliation -/

/-- C8: for an annex-bearing clone under ephemeral mode, the origin remote
is excluded from annex transfer, the local availability is marked dead,
and when symlinks are supported and the origin URL resolves to a local
path the annex directory is replaced by a symlink into the origin's annex
directory (appending the git directory part when the path does not end in
it); when symlinks are unsupported a warning is recorded, no link is
created, and the dead marking still applies. -/
theorem ephemeral_reckless_config (env : AnnexEnv) (hk : env.knowsAnnex = true) :
    (("remote.origin.annex-ignore", "true") ∈
       (postclonecfg_annexdataset env (some "ephemeral")).config) ∧
    (postclonecfg_annexdataset env (some "ephemeral")).deadHere = true ∧
    (∀ u p, env.symlinkCapable = true → env.originUrl = some u →
      env.localPath u = some p →
      (postclonecfg_annexdataset env (some "ephemeral")).annexLink =
        some ((if p.getLast? == some ".git" then p else p ++ [".git"]) ++ ["annex"])) ∧
    (env.symlinkCapable = false →
      (postclonecfg_annexdataset env (some "ephemeral")).warnedNoSymlink = true ∧
      (postclonecfg_annexdataset env (some "ephemeral")).annexLink = none ∧
      (postclonecfg_annexdataset env (some "ephemeral")).deadHere = true) := by
  have hsh : strStarts "ephemeral" "shared-" = false := rfl
  refine ⟨?_, ?_, ?_, ?_⟩
  all_goals
    simp only [postclonecfg_annexdataset, hk, hsh]
  · cases hcap : env.symlinkCapable with
    | false => simp [hsh]
    | true =>
      cases hurl : env.originUrl with
      | none => simp [hsh]
      | some u =>
        cases hlp : env.localPath u with
        | none => simp [hsh, hlp]
        | some p => simp [hsh, hlp]
  · cases hcap : env.symlinkCapable with
    | false => simp [hsh]
    | true =>
      cases hurl : env.originUrl with
      | none => simp [hsh]
      | some u =>
        cases hlp : env.localPath u with
        | none => simp [hsh, hlp]
        | some p => simp [hsh, hlp]
  · intro u p hcap hurl hlp
    simp [hsh, hcap, hurl, hlp]
  · intro hcap
    simp [hsh, hcap, emptyAnnexState]

/-- Concrete environment for the ephemeral witness. -/
def envEph : AnnexEnv :=
  { knowsAnnex := true, symlinkCapable := true, originUrl := some "/src/ds"
    localPath := fun u => if u == "/src/ds" then some ["src", "ds"] else none }

theorem ephemeral_reckless_config_witness :
    (("remote.origin.annex-ignore", "true") ∈
       (postclonecfg_annexdataset envEph (some "ephemeral")).config) ∧
    (postclonecfg_annexdataset envEph (some "ephemeral")).deadHere = true ∧
    (postclonecfg_annexdataset envEph (some "ephemeral")).annexLink =
      some ["src", "ds", ".git", "annex"] := by
  have h := ephemeral_reckless_config envEph rfl
  refine ⟨h.1, h.2.1, ?_⟩
  have h3 := h.2.2.1 "/src/ds" ["src", "ds"] rfl rfl (by decide)
  simpa using h3

/-! ## Source specification decoding -/

/-- C5: decoding an archive-store spec whose fragment dataset ID matches
the UUID pattern yields the trace built from the first three characters,
a slash, and the remainder; a default destination path equal to the
dataset ID; the text after the separator as the version (absent without
one); and a fetch URL equal to the original URL with the fragment
stripped, the ria marker stripped from the scheme, and the trace appended
to the existing path with a slash inserted only when that path is
non-empty and does not already end in one; in particular the store
example of the specification decodes to the expected concrete values. -/
theorem ria_uuid_decode :
    (∀ (spec : String) (u : URLRI) (ipo : String → String),
      strStarts u.scheme "ria+" = true →
      uuidMatch (String.mk (splitAtFirst '@' u.fragment.toList).1) = true →
      decode_source_spec spec (.url u) ipo =
        .ok { source := spec
              version := (splitAtFirst '@' u.fragment.toList).2.map (fun cs => String.mk cs)
              typ := "ria"
              giturl := (riaGitUrl u (strTake (String.mk (splitAtFirst '@' u.fragment.toList).1) 3 ++ "/" ++ strDrop (String.mk (splitAtFirst '@' u.fragment.toList).1) 3)).render
              default_destpath := String.mk (splitAtFirst '@' u.fragment.toList).1 }) ∧
    (∀ ipo : String → String,
      decode_source_spec "ria+http://store.datalad.org#76b6ca66-36b1-11ea-a2e6-f0d5bf7b5561@v1"
        (.url { scheme := "ria+http", netloc := "store.datalad.org", path := ""
                fragment := "76b6ca66-36b1-11ea-a2e6-f0d5bf7b5561@v1" }) ipo =
        .ok { source := "ria+http://store.datalad.org#76b6ca66-36b1-11ea-a2e6-f0d5bf7b5561@v1"
              version := some "v1"
              typ := "ria"
              giturl := "http://store.datalad.org/76b/6ca66-36b1-11ea-a2e6-f0d5bf7b5561"
              default_destpath := "76b6ca66-36b1-11ea-a2e6-f0d5bf7b5561" }) := by
  constructor
  · intro spec u ipo hria huuid
    have huuid2 : uuidMatch (String.mk (splitAtFirst '@' u.fragment.data).1) = true := huuid
    simp [decode_source_spec, hria, huuid2]
  · intro ipo
    rfl

/-- The store URL of the concrete archive-store example. -/
def uStore : URLRI :=
  { scheme := "ria+http", netloc := "store.datalad.org", path := ""
    fragment := "76b6ca66-36b1-11ea-a2e6-f0d5bf7b5561@v1" }

theorem ria_uuid_decode_witness :
    decode_source_spec "s" (.url uStore) (fun _ => "") =
      .ok { source := "s", version := some "v1", typ := "ria"
            giturl := "http://store.datalad.org/76b/6ca66-36b1-11ea-a2e6-f0d5bf7b5561"
            default_destpath := "76b6ca66-36b1-11ea-a2e6-f0d5bf7b5561" } := by
  have h := ria_uuid_decode.1 "s" uStore (fun _ => "") (by decide) (by decide)
  simpa using h

theorem decode_ria_invalid (spec : String) (u : URLRI) (ipo : String → String)
    (hria : strStarts u.scheme "ria+" = true)
    (hnu : uuidMatch (String.mk (splitAtFirst '@' u.fragment.toList).1) = false)
    (hnt : strStarts (String.mk (splitAtFirst '@' u.fragment.toList).1) "~" = false) :
    decode_source_spec spec (.url u) ipo =
      .error ("RIA URI not recognized, no valid dataset ID or other supported scheme: " ++ spec) := by
  have hnu2 : uuidMatch (String.mk (splitAtFirst '@' u.fragment.data).1) = false := hnu
  have hnt2 : strStarts (String.mk (splitAtFirst '@' u.fragment.data).1) "~" = false := hnt
  simp [decode_source_spec, hria, hnu2, hnt2]

theorem decodeAll_error (ipo : String → String) :
    ∀ (specs : List (String × SourceRI)) (spec : String) (ri : SourceRI) (e : String),
    (spec, ri) ∈ specs →
    decode_source_spec spec ri ipo = .error e →
    ∃ e2, decodeAll ipo specs = .error e2 := by
  intro specs
  induction specs with
  | nil => intro spec ri e hmem _; simp at hmem
  | cons hd tl ih =>
    intro spec ri e hmem hdec
    rcases List.mem_cons.mp hmem with heq | htl
    · obtain ⟨s, r⟩ := hd
      obtain ⟨h1, h2⟩ := Prod.mk.injEq .. ▸ heq
      subst h1; subst h2
      exact ⟨e, by simp [decodeAll, hdec]⟩
    · cases hdec0 : decode_source_spec hd.1 hd.2 ipo with
      | error e1 => exact ⟨e1, by simp [decodeAll, hdec0]⟩
      | ok p =>
        obtain ⟨e2, h2⟩ := ih spec ri e htl hdec
        exact ⟨e2, by simp [decodeAll, hdec0, h2]⟩

/-- C9: an archive-store spec fails to decode exactly when the dataset-ID
part of its fragment neither matches the UUID pattern nor begins with the
alias marker, and such a failure aborts the full operation during the
decoding stage, before any candidate transfer is attempted. -/
theorem ria_invalid_fragment_error :
    (∀ (spec : String) (u : URLRI) (ipo : String → String),
      strStarts u.scheme "ria+" = true →
      ((∃ e, decode_source_spec spec (.url u) ipo = .error e) ↔
        (uuidMatch (String.mk (splitAtFirst '@' u.fragment.toList).1) = false ∧
         strStarts (String.mk (splitAtFirst '@' u.fragment.toList).1) "~" = false))) ∧
    (∀ (fe : FullEnv) (specs : List (String × SourceRI)) (spec : String) (u : URLRI),
      (spec, SourceRI.url u) ∈ specs →
      strStarts u.scheme "ria+" = true →
      uuidMatch (String.mk (splitAtFirst '@' u.fragment.toList).1) = false →
      strStarts (String.mk (splitAtFirst '@' u.fragment.toList).1) "~" = false →
      ∃ e, clone_dataset_full fe specs = .error e) := by
  constructor
  · intro spec u ipo hria
    constructor
    · rintro ⟨e, he⟩
      cases h1 : uuidMatch (String.mk (splitAtFirst '@' u.fragment.data).1) with
      | true => simp [decode_source_spec, hria, h1] at he
      | false =>
        cases h2 : strStarts (String.mk (splitAtFirst '@' u.fragment.data).1) "~" with
        | true => simp [decode_source_spec, hria, h1, h2] at he
        | false => exact ⟨h1, h2⟩
    · rintro ⟨h1, h2⟩
      exact ⟨_, decode_ria_invalid spec u ipo hria h1 h2⟩
  · intro fe specs spec u hmem hria h1 h2
    obtain ⟨e2, he2⟩ := decodeAll_error fe.installPathOf specs spec (.url u) _ hmem
      (decode_ria_invalid spec u fe.installPathOf hria h1 h2)
    exact ⟨e2, by simp [clone_dataset_full, he2]⟩

/-- A plain environment for the invalid-fragment witness. -/
def envPlain : CloneEnv :=
  { destNonEmpty := false, destInstalled := false, trackUrl := ""
    pathNorm := fun _ => none, localFileUrl := fun _ => "", expandUser := id
    outcome := fun _ => .success, postInstalled := true, dsName := "ds", dsPath := "/tmp/ds"
    excStr := fun _ e => e, annexRecords := [], riaRecords := []
    headExists := true, remoteBranches := [] }

/-- A ria URL whose fragment is neither a UUID nor an alias. -/
def uBad : URLRI :=
  { scheme := "ria+http", netloc := "store.example", path := "", fragment := "notauuid" }

/-- The full environment of the invalid-fragment witness. -/
def feBad : FullEnv :=
  { env := envPlain, expand := fun g => [g], installPathOf := fun _ => "" }

theorem ria_invalid_fragment_error_witness :
    ∃ e, clone_dataset_full feBad [("ria+http://store.example#notauuid", .url uBad)] =
      .error e := by
  exact ria_invalid_fragment_error.2 feBad _ "ria+http://store.example#notauuid" uBad
    (List.mem_singleton.mpr rfl) (by decide) (by decide) (by decide)

/-! ## Shape of the dataset-ID pattern match -/

theorem hexRun_append (t : List Char) :
    ∀ (n : Nat) (cs rest : List Char), hexRun n cs = some rest →
      hexRun n (cs ++ t) = some (rest ++ t) := by
  intro n
  induction n with
  | zero =>
    intro cs rest h
    simp [hexRun] at h ⊢
    rw [h]
  | succ m ih =>
    intro cs rest h
    cases cs with
    | nil => simp [hexRun] at h
    | cons c cs' =>
      cases hc : isHexLower c with
      | false => simp [hexRun, hc] at h
      | true =>
        simp only [hexRun, hc, if_true] at h
        simp only [List.cons_append, hexRun, hc, if_true]
        exact ih cs' rest h

theorem dashThen_append (t : List Char) (n : Nat) :
    ∀ (cs rest : List Char), dashThen n cs = some rest →
      dashThen n (cs ++ t) = some (rest ++ t) := by
  intro cs rest h
  cases cs with
  | nil => simp [dashThen] at h
  | cons c cs' =>
    cases hc : (c == '-') with
    | false => simp [dashThen, hc] at h
    | true =>
      simp only [dashThen, hc, if_true] at h
      simp only [List.cons_append, dashThen, hc, if_true]
      exact hexRun_append t n cs' rest h

theorem uuidTail_append (cs t rest : List Char) (h : uuidTail cs = some rest) :
    uuidTail (cs ++ t) = some (rest ++ t) := by
  unfold uuidTail at h ⊢
  cases h1 : hexRun 8 cs with
  | none => rw [h1] at h; exact absurd h (by simp)
  | some r1 =>
    rw [h1] at h
    rw [hexRun_append t 8 cs r1 h1]
    simp only [Option.some_bind] at h ⊢
    cases h2 : dashThen 4 r1 with
    | none => rw [h2] at h; exact absurd h (by simp)
    | some r2 =>
      rw [h2] at h
      rw [dashThen_append t 4 r1 r2 h2]
      simp only [Option.some_bind] at h ⊢
      cases h3 : dashThen 4 r2 with
      | none => rw [h3] at h; exact absurd h (by simp)
      | some r3 =>
        rw [h3] at h
        rw [dashThen_append t 4 r2 r3 h3]
        simp only [Option.some_bind] at h ⊢
        cases h4 : dashThen 4 r3 with
        | none => rw [h4] at h; exact absurd h (by simp)
        | some r4 =>
          rw [h4] at h
          rw [dashThen_append t 4 r3 r4 h4]
          simp only [Option.some_bind] at h ⊢
          exact dashThen_append t 12 r4 rest h

theorem hexRun_decomp :
    ∀ (n : Nat) (cs rest : List Char), hexRun n cs = some rest →
      ∃ p, cs = p ++ rest ∧ p.length = n ∧ ∀ c ∈ p, isHexLower c = true := by
  intro n
  induction n with
  | zero =>
    intro cs rest h
    simp [hexRun] at h
    exact ⟨[], by simp [h], rfl, by simp⟩
  | succ m ih =>
    intro cs rest h
    cases cs with
    | nil => simp [hexRun] at h
    | cons c cs' =>
      cases hc : isHexLower c with
      | false => simp [hexRun, hc] at h
      | true =>
        simp only [hexRun, hc, if_true] at h
        obtain ⟨p, hp1, hp2, hp3⟩ := ih cs' rest h
        refine ⟨c :: p, by simp [hp1], by simp [hp2], ?_⟩
        intro x hx
        rcases List.mem_cons.mp hx with hh | hh
        · exact hh ▸ hc
        · exact hp3 x hh

theorem dashThen_decomp (n : Nat) (cs rest : List Char) (h : dashThen n cs = some rest) :
    ∃ p, cs = '-' :: (p ++ rest) ∧ p.length = n ∧ ∀ c ∈ p, isHexLower c = true := by
  cases cs with
  | nil => simp [dashThen] at h
  | cons c cs' =>
    cases hc : (c == '-') with
    | false => simp [dashThen, hc] at h
    | true =>
      simp only [dashThen, hc, if_true] at h
      obtain ⟨p, hp1, hp2, hp3⟩ := hexRun_decomp n cs' rest h
      have hcd : c = '-' := by simpa using hc
      exact ⟨p, by simp [hcd, hp1], hp2, hp3⟩

/-- A character admissible anywhere in the first 36 positions of the
dataset-ID pattern: a dash or a lowercase hexadecimal digit. -/
def dashOrHex (c : Char) : Bool := c == '-' || isHexLower c

theorem uuid36_decomp (cs rest : List Char) (h : uuidTail cs = some rest) :
    ∃ p, cs = p ++ rest ∧ p.length = 36 ∧ ∀ c ∈ p, dashOrHex c = true := by
  unfold uuidTail at h
  cases h1 : hexRun 8 cs with
  | none => rw [h1] at h; exact absurd h (by simp)
  | some r1 =>
    rw [h1] at h
    simp only [Option.some_bind] at h
    cases h2 : dashThen 4 r1 with
    | none => rw [h2] at h; exact absurd h (by simp)
    | some r2 =>
      rw [h2] at h
      simp only [Option.some_bind] at h
      cases h3 : dashThen 4 r2 with
      | none => rw [h3] at h; exact absurd h (by simp)
      | some r3 =>
        rw [h3] at h
        simp only [Option.some_bind] at h
        cases h4 : dashThen 4 r3 with
        | none => rw [h4] at h; exact absurd h (by simp)
        | some r4 =>
          rw [h4] at h
          simp only [Option.some_bind] at h
          obtain ⟨p8, q1, l1, a1⟩ := hexRun_decomp 8 cs r1 h1
          obtain ⟨p4a, q2, l2, a2⟩ := dashThen_decomp 4 r1 r2 h2
          obtain ⟨p4b, q3, l3, a3⟩ := dashThen_decomp 4 r2 r3 h3
          obtain ⟨p4c, q4, l4, a4⟩ := dashThen_decomp 4 r3 r4 h4
          obtain ⟨p12, q5, l5, a5⟩ := dashThen_decomp 12 r4 rest h
          refine ⟨p8 ++ '-' :: (p4a ++ '-' :: (p4b ++ '-' :: (p4c ++ '-' :: p12))), ?_, ?_, ?_⟩
          · rw [q1, q2, q3, q4, q5]
            simp
          · simp [l1, l2, l3, l4, l5]
          · intro c hcmem
            simp only [List.mem_append, List.mem_cons] at hcmem
            rcases hcmem with h | h | h | h | h | h | h | h | h
            · simp [dashOrHex, a1 c h]
            · simp [dashOrHex, h]
            · simp [dashOrHex, a2 c h]
            · simp [dashOrHex, h]
            · simp [dashOrHex, a3 c h]
            · simp [dashOrHex, h]
            · simp [dashOrHex, a4 c h]
            · simp [dashOrHex, h]
            · simp [dashOrHex, a5 c h]

/-- The uppercase hexadecimal digits. -/
def upperHexDigits : List Char := ['A', 'B', 'C', 'D', 'E', 'F']

theorem upper_not_dashOrHex (c : Char) (hc : c ∈ upperHexDigits) :
    dashOrHex c = false := by
  simp [upperHexDigits] at hc
  rcases hc with rfl | rfl | rfl | rfl | rfl | rfl <;> decide

theorem uuidMatch_upper_false (s : String)
    (h : ∃ c ∈ s.toList.take 36, c ∈ upperHexDigits) :
    uuidMatch s = false := by
  obtain ⟨c, hc, hup⟩ := h
  cases hres : uuidMatch s with
  | false => rfl
  | true =>
    exfalso
    unfold uuidMatch at hres
    cases ht : uuidTail s.toList with
    | none => rw [ht] at hres; simp at hres
    | some rest =>
      obtain ⟨p, hp1, hp2, hp3⟩ := uuid36_decomp s.toList rest ht
      have htake : s.toList.take 36 = p := by
        rw [hp1, ← hp2, List.take_left]
      rw [htake] at hc
      have hd := hp3 c hc
      rw [upper_not_dashOrHex c hup] at hd
      exact Bool.false_ne_true hd

theorem splitAtFirst_of_not_contains (sep : Char) :
    ∀ l : List Char, l.contains sep = false → splitAtFirst sep l = (l, none) := by
  intro l
  induction l with
  | nil => intro _; rfl
  | cons c rest ih =>
    intro h
    rw [List.contains_cons] at h
    simp only [Bool.or_eq_false_iff] at h
    have h1 : (c == sep) = false := by
      cases hq : (c == sep) with
      | false => rfl
      | true =>
        exfalso
        have hcs : c = sep := by simpa using hq
        subst hcs
        simp at h
    simp [splitAtFirst, h1, ih h.2]

/-- C10: the dataset-ID recognition is a head match over lowercase
hexadecimal: any fragment beginning with the full 36-character lowercase
8-4-4-4-12 form followed by arbitrary extra separator-free characters is
accepted, with the extra characters carried into the trace and the
default destination path; while an uppercase hexadecimal digit anywhere
in the first 36 characters defeats the match, so such a fragment is
rejected unless it begins with the alias marker. -/
theorem ria_uuid_recognition :
    (∀ (u36 extra : List Char), uuidExact u36 = true →
      uuidMatch (String.mk (u36 ++ extra)) = true) ∧
    (∀ (spec : String) (u : URLRI) (ipo : String → String) (u36 extra : List Char),
      strStarts u.scheme "ria+" = true →
      uuidExact u36 = true →
      (u36 ++ extra).contains '@' = false →
      u.fragment = String.mk (u36 ++ extra) →
      decode_source_spec spec (.url u) ipo =
        .ok { source := spec
              version := none
              typ := "ria"
              giturl := (riaGitUrl u (strTake (String.mk (u36 ++ extra)) 3 ++ "/" ++ strDrop (String.mk (u36 ++ extra)) 3)).render
              default_destpath := String.mk (u36 ++ extra) }) ∧
    (∀ s : String, (∃ c ∈ s.toList.take 36, c ∈ upperHexDigits) →
      uuidMatch s = false) ∧
    (∀ (spec : String) (u : URLRI) (ipo : String → String),
      strStarts u.scheme "ria+" = true →
      (∃ c ∈ u.fragment.toList.take 36, c ∈ upperHexDigits) →
      u.fragment.toList.contains '@' = false →
      strStarts u.fragment "~" = false →
      ∃ e, decode_source_spec spec (.url u) ipo = .error e) := by
  have hmatch : ∀ (u36 extra : List Char), uuidExact u36 = true →
      uuidMatch (String.mk (u36 ++ extra)) = true := by
    intro u36 extra hex
    have hex2 : uuidTail u36 = some [] := by
      have h2 := hex
      simp only [uuidExact, beq_iff_eq] at h2
      exact h2
    have := uuidTail_append u36 extra [] hex2
    simp only [List.nil_append] at this
    unfold uuidMatch
    rw [show (String.mk (u36 ++ extra)).toList = u36 ++ extra from rfl, this]
    rfl
  refine ⟨hmatch, ?_, uuidMatch_upper_false, ?_⟩
  · intro spec u ipo u36 extra hria hex hnoat hfrag
    have hsplit : splitAtFirst '@' u.fragment.data = (u36 ++ extra, none) := by
      rw [show u.fragment.data = (String.mk (u36 ++ extra)).data from by rw [hfrag]]
      exact splitAtFirst_of_not_contains '@' (u36 ++ extra) hnoat
    have hm : uuidMatch (String.mk (u36 ++ extra)) = true := hmatch u36 extra hex
    simp [decode_source_spec, hria, hsplit, hm]
  · intro spec u ipo hria hup hnoat hnt
    have hsplit : splitAtFirst '@' u.fragment.data = (u.fragment.data, none) :=
      splitAtFirst_of_not_contains '@' u.fragment.data hnoat
    refine ⟨_, decode_ria_invalid spec u ipo hria ?_ ?_⟩
    · show uuidMatch (String.mk (splitAtFirst '@' u.fragment.data).1) = false
      rw [hsplit]
      exact uuidMatch_upper_false u.fragment hup
    · show strStarts (String.mk (splitAtFirst '@' u.fragment.data).1) "~" = false
      rw [hsplit]
      exact hnt

/-- Concrete ria URL whose fragment extends a full UUID with extra
characters. -/
def uExtra : URLRI :=
  { scheme := "ria+http", netloc := "store.example", path := "/store"
    fragment := "76b6ca66-36b1-11ea-a2e6-f0d5bf7b5561xy" }

/-- Concrete ria URL whose fragment has an uppercase hexadecimal digit. -/
def uUpper : URLRI :=
  { scheme := "ria+http", netloc := "store.example", path := ""
    fragment := "76B6ca66-36b1-11ea-a2e6-f0d5bf7b5561" }

theorem ria_uuid_recognition_witness :
    uuidMatch "76b6ca66-36b1-11ea-a2e6-f0d5bf7b5561xy" = true ∧
    decode_source_spec "spec10" (.url uExtra) (fun _ => "") =
      .ok { source := "spec10", version := none, typ := "ria"
            giturl := "http://store.example/store/76b/6ca66-36b1-11ea-a2e6-f0d5bf7b5561xy"
            default_destpath := "76b6ca66-36b1-11ea-a2e6-f0d5bf7b5561xy" } ∧
    uuidMatch "76B6ca66-36b1-11ea-a2e6-f0d5bf7b5561" = false ∧
    (∃ e, decode_source_spec "specUp" (.url uUpper) (fun _ => "") = .error e) := by
  refine ⟨?_, ?_, ?_, ?_⟩
  · have h := ria_uuid_recognition.1
      ("76b6ca66-36b1-11ea-a2e6-f0d5bf7b5561".toList) ("xy".toList) (by decide)
    simpa using h
  · have h := ria_uuid_recognition.2.1 "spec10" uExtra (fun _ => "")
      ("76b6ca66-36b1-11ea-a2e6-f0d5bf7b5561".toList) ("xy".toList)
      (by decide) (by decide) (by decide) (by decide)
    simpa using h
  · exact ria_uuid_recognition.2.2.1 "76B6ca66-36b1-11ea-a2e6-f0d5bf7b5561"
      ⟨'B', by decide, by decide⟩
  · exact ria_uuid_recognition.2.2.2 "specUp" uUpper (fun _ => "")
      (by decide) ⟨'B', by decide, by decide⟩ (by decide) (by decide)

/-! ## Ancestor-origin registration walk -/

theorem origin_walk_labels (env : OriginEnv) :
    ∀ (fuel : Nat) (known probe : List String) (label : Nat),
      ∀ r ∈ (configure_origins env fuel known probe label).regs,
        label ≤ r.label ∧ r.fetch = true := by
  intro fuel
  induction fuel with
  | zero => intro known probe label r hr; simp [configure_origins] at hr
  | succ f ih =>
    intro known probe label r hr
    unfold configure_origins at hr
    split at hr
    · simp at hr
    · split at hr
      · simp at hr
      · split at hr
        · simp at hr
        · simp only [List.mem_append] at hr
          rcases hr with hr | hr
          · unfold originStep at hr
            split at hr
            · split at hr
              · simp at hr
              · simp at hr
                subst hr
                exact ⟨Nat.le_refl _, rfl⟩
            · simp at hr
          · have h2 := ih _ _ _ r hr
            exact ⟨Nat.le_of_succ_le h2.1, h2.2⟩

theorem origin_walk_root (env : OriginEnv) (fuel : Nat) (known : List String) :
    ∀ r ∈ (configure_origins env fuel known [] 1).regs,
      2 ≤ r.label ∧ r.fetch = true := by
  intro r hr
  cases fuel with
  | zero => simp [configure_origins] at hr
  | succ f =>
    unfold configure_origins at hr
    split at hr
    · simp at hr
    · split at hr
      · simp at hr
      · split at hr
        · simp at hr
        · simp only [originStep, ne_eq, not_true_eq_false, if_false,
            List.nil_append, reduceIte] at hr
          exact origin_walk_labels env f _ _ 2 r hr

/-- A cyclic world of local origins: the target's origin is A, A's origin
is B, B's origin is A again, and the location reached through A, B, A has
origin C. -/
def cycEnv : OriginEnv :=
  { originUrl := fun p =>
      if p = ([] : List String) then some "A"
      else if p = ["A"] then some "B"
      else if p = ["A", "B"] then some "A"
      else if p = ["A", "B", "A"] then some "C"
      else none
    isLocalPath := fun _ => true
    inherit := true }

/-- C7 counterexample: an origin chain that reaches a URL which is already
a known remote URL of the target (the probed location with chain A, B has
origin URL A while A is among the known URLs); the claimed termination
does not happen: the walk recurses onward and still registers a deeper
ancestor as origin-4. -/
theorem origin_walk_continues_past_known_url :
    cycEnv.originUrl ["A", "B"] = some "A" ∧
    (["B", "A"] : List String).contains "A" = true ∧
    configure_origins cycEnv 8 ["B", "A"] ["A", "B"] 3 =
      ⟨[⟨4, "C", true⟩], true⟩ ∧
    (configure_origins cycEnv 8 ["B", "A"] ["A", "B"] 3).regs ≠ [] := by
  refine ⟨by decide, by decide, by decide, by decide⟩

/-- C7 amended: the walk returns without recursing exactly when the probed
remote has no origin URL, when origin inheritance is disabled, or when
the origin URL is not a local path; otherwise it always recurses into the
origin's own location with the next label, a URL already known to the
configured dataset merely suppressing that level's registration (so the
walk need not terminate on cyclic local origin chains); a registration at
an unknown local URL records the current label with immediate content
fetch, the probe of the configured dataset itself registers nothing, and
every registration reachable from the root call carries a label of at
least 2 (hence a remote name origin-2 or deeper) with content fetched
immediately. -/
theorem origin_walk_stop_conditions (env : OriginEnv) :
    (∀ fuel known probe label,
      env.originUrl probe = none →
      configure_origins env (fuel + 1) known probe label = ⟨[], true⟩) ∧
    (∀ fuel known probe label url,
      env.originUrl probe = some url →
      (env.inherit = false ∨ env.isLocalPath url = false) →
      configure_origins env (fuel + 1) known probe label = ⟨[], true⟩) ∧
    (∀ fuel known probe label url,
      env.originUrl probe = some url →
      env.inherit = true →
      env.isLocalPath url = true →
      configure_origins env (fuel + 1) known probe label =
        ⟨(originStep probe label url known).1 ++
            (configure_origins env fuel (originStep probe label url known).2
              (probe ++ [url]) (label + 1)).regs,
          (configure_origins env fuel (originStep probe label url known).2
            (probe ++ [url]) (label + 1)).completed⟩) ∧
    (∀ probe label url known, known.contains url = true → probe ≠ [] →
      (originStep probe label url known).1 = []) ∧
    (∀ probe label url known, known.contains url = false → probe ≠ [] →
      (originStep probe label url known).1 = [⟨label, url, true⟩]) ∧
    (∀ fuel known, ∀ r ∈ (configure_origins env fuel known [] 1).regs,
      2 ≤ r.label ∧ r.fetch = true) := by
  refine ⟨?_, ?_, ?_, ?_, ?_, ?_⟩
  · intro fuel known probe label hnone
    unfold configure_origins
    rw [hnone]
  · intro fuel known probe label url hurl hOr
    unfold configure_origins
    rw [hurl]
    rcases hOr with h | h
    · simp [h]
    · by_cases hi : env.inherit = false
      · simp [hi]
      · simp [hi, h]
  · intro fuel known probe label url hurl hinh hloc
    conv_lhs => rw [configure_origins]
    rw [hurl]
    dsimp only
    rw [if_neg (by simp [hinh]), if_neg (by simp [hloc])]
  · intro probe label url known hcont hne
    have hm : url ∈ known := by simpa using hcont
    simp [originStep, hne, hm]
  · intro probe label url known hcont hne
    have hm : url ∉ known := by simpa using hcont
    simp [originStep, hne, hm]
  · intro fuel known
    exact origin_walk_root env fuel known

theorem origin_walk_stop_conditions_witness :
    configure_origins cycEnv 1 [] ["A", "B", "A", "C"] 5 = ⟨[], true⟩ ∧
    configure_origins cycEnv 3 ["A"] [] 1 =
      ⟨(originStep [] 1 "A" ["A"]).1 ++
          (configure_origins cycEnv 2 (originStep [] 1 "A" ["A"]).2
            ([] ++ ["A"]) 2).regs,
        (configure_origins cycEnv 2 (originStep [] 1 "A" ["A"]).2
          ([] ++ ["A"]) 2).completed⟩ := by
  refine ⟨?_, ?_⟩
  · exact (origin_walk_stop_conditions cycEnv).1 0 [] ["A", "B", "A", "C"] 5 (by decide)
  · exact (origin_walk_stop_conditions cycEnv).2.2.1 2 ["A"] [] 1 "A"
      (by decide) (by decide) (by decide)

end Datagit
